import Mathlib

/-!
Shallow embedding of the smart-credit reconciliation / classification / ageing
engine (src/dashboard/src/utils.js, src/server.js, src/unnamed/part_000..002).

Modelling conventions:
* JS numbers that hold money amounts are embedded as `ℚ` (decimal amounts are
  exact rationals; the tolerance 0.1 is exact in `ℚ`).
* Date values are embedded as `ℤ` millisecond timestamps: a transaction's
  `date` field is the value `parseDate` yields for its date string, so the
  ageing and running-balance functions (which only consume dates through
  `parseDate`) take transactions whose `date` is already a timestamp.
* The parsed opening balance (`parseFloat(openingBalanceStr.replace(/,/g,''))`)
  is embedded as `Option ℚ`: `none` models a missing / empty / NaN opening
  balance (NaN compares false with `<` and `>` in JS exactly like the `none`
  branches here), `some v` the parsed signed value.
-/

inductive Sign
  | Dr
  | Cr
deriving DecidableEq, Repr

structure Txn where
  date : ℤ
  amount : ℚ
  sign : Sign
deriving DecidableEq, Repr

structure DebitItem where
  date : ℤ
  amount : ℚ
deriving DecidableEq, Repr

structure OverdueItem where
  date : ℤ
  amount : ℚ
  originalAmount : ℚ
deriving DecidableEq, Repr

structure Buckets where
  b0_30 : ℚ
  b30_60 : ℚ
  b60_90 : ℚ
  b90p : ℚ
deriving DecidableEq, Repr

/-- Timestamp of `new Date('2020-01-01')` (utils.js line 44): the fixed
distant-past anchor date used for the synthetic opening-balance debit. -/
def anchorDate : ℤ := 1577836800000

/-- Milliseconds per day, `1000 * 60 * 60 * 24` (utils.js line 68). -/
def msPerDay : ℤ := 86400000

/-- Stable insertion of a transaction into a date-sorted list: a transaction
is placed after all entries whose date is `≤` its own, matching the stable
`sort((a, b) => parseDate(a.date) - parseDate(b.date))` of utils.js line 48. -/
def insertByDate (t : Txn) : List Txn → List Txn
  | [] => [t]
  | u :: us => if t.date < u.date then t :: u :: us else u :: insertByDate t us

/-- `[...transactions].sort((a, b) => parseDate(a.date) - parseDate(b.date))`
(utils.js line 48), as a stable sort by the normalized date. -/
def sortTxns (l : List Txn) : List Txn :=
  l.foldl (fun acc t => insertByDate t acc) []

/-- The debit created before any transaction is processed (utils.js lines
43-44): a negative opening balance becomes a synthetic debit of its absolute
value dated at the anchor date; otherwise no initial debit. -/
def initialDebits (opBal : Option ℚ) : List DebitItem :=
  match opBal with
  | some v => if v < 0 then [⟨anchorDate, |v|⟩] else []
  | none => []

/-- The credit pool seeded before any transaction is processed (utils.js
lines 45-47): a positive opening balance is added to `totalCredits`. -/
def initialCredits (opBal : Option ℚ) : ℚ :=
  match opBal with
  | some v => if v < 0 then 0 else if v > 0 then v else 0
  | none => 0

/-- The `debits` array after the `sortedTxns.forEach` loop of utils.js lines
49-53: the synthetic opening debit (if any) followed by the `Dr`-signed
transactions in sorted date order. -/
def debitsOf (txns : List Txn) (opBal : Option ℚ) : List DebitItem :=
  initialDebits opBal ++
    (sortTxns txns).filterMap
      (fun t => if t.sign = Sign.Dr then some ⟨t.date, t.amount⟩ else none)

/-- The `totalCredits` accumulator after the `sortedTxns.forEach` loop of
utils.js lines 49-53: the positive opening balance (if any) plus the amounts
of the `Cr`-signed transactions. -/
def totalCreditsOf (txns : List Txn) (opBal : Option ℚ) : ℚ :=
  initialCredits opBal +
    ((sortTxns txns).filterMap
      (fun t => if t.sign = Sign.Cr then some t.amount else none)).sum

/-- The FIFO knock-off loop of utils.js lines 56-63: walk the debits with a
`remainingCredit` pool; a covered debit consumes credit, an uncovered one
emits an overdue item of the shortfall and zeroes the pool. -/
def fifoWalk : List DebitItem → ℚ → List OverdueItem
  | [], _ => []
  | d :: ds, rem =>
    if rem ≥ d.amount then fifoWalk ds (rem - d.amount)
    else ⟨d.date, d.amount - rem, d.amount⟩ :: fifoWalk ds 0

/-- The `overdue` array built by `calculateAging` (utils.js lines 54-63). -/
def overdueOf (txns : List Txn) (opBal : Option ℚ) : List OverdueItem :=
  fifoWalk (debitsOf txns opBal) (totalCreditsOf txns opBal)

/-- `Math.ceil(Math.abs(today - item.date) / (1000*60*60*24))` (utils.js
lines 67-68), as ceiling division on integer millisecond timestamps. -/
def diffDays (today date : ℤ) : ℕ :=
  ((today - date).natAbs + 86399999) / 86400000

/-- The bucketing step of utils.js lines 69-72: add an overdue item's amount
to the band whose upper bound is the smallest of 30, 60, 90, ∞ at least the
age in days. -/
def addToBuckets (today : ℤ) (b : Buckets) (item : OverdueItem) : Buckets :=
  if diffDays today item.date ≤ 30 then { b with b0_30 := b.b0_30 + item.amount }
  else if diffDays today item.date ≤ 60 then { b with b30_60 := b.b30_60 + item.amount }
  else if diffDays today item.date ≤ 90 then { b with b60_90 := b.b60_90 + item.amount }
  else { b with b90p := b.b90p + item.amount }

/-- `calculateAging(transactions, openingBalanceStr)` (utils.js lines 36-75);
`today` is the `new Date()` reference instant of the call. -/
def calculateAging (today : ℤ) (txns : List Txn) (opBal : Option ℚ) : Buckets :=
  (overdueOf txns opBal).foldl (addToBuckets today) ⟨0, 0, 0, 0⟩

/-- Sum of the four ageing buckets. -/
def bucketsSum (b : Buckets) : ℚ :=
  b.b0_30 + b.b30_60 + b.b60_90 + b.b90p

lemma mem_insertByDate (t u : Txn) (l : List Txn) :
    u ∈ insertByDate t l ↔ u = t ∨ u ∈ l := by
  induction l with
  | nil => simp [insertByDate]
  | cons v vs ih =>
    by_cases h : t.date < v.date
    · simp [insertByDate, h]
    · simp only [insertByDate, if_neg h, List.mem_cons, ih]
      tauto

lemma mem_foldl_insert (l : List Txn) (acc : List Txn) (u : Txn) :
    u ∈ l.foldl (fun acc t => insertByDate t acc) acc ↔ u ∈ acc ∨ u ∈ l := by
  induction l generalizing acc with
  | nil => simp
  | cons t ts ih =>
    rw [List.foldl_cons, ih]
    simp [mem_insertByDate]
    tauto

lemma mem_sortTxns (l : List Txn) (u : Txn) : u ∈ sortTxns l ↔ u ∈ l := by
  unfold sortTxns
  rw [mem_foldl_insert]
  simp

lemma initialCredits_some (v : ℚ) :
    initialCredits (some v) = if v < 0 then 0 else if v > 0 then v else 0 := rfl

lemma initialCredits_none : initialCredits none = 0 := rfl

lemma initialDebits_some (v : ℚ) :
    initialDebits (some v) = if v < 0 then [⟨anchorDate, |v|⟩] else [] := rfl

lemma initialDebits_none : initialDebits none = [] := rfl

lemma initialCredits_nonneg (opBal : Option ℚ) : 0 ≤ initialCredits opBal := by
  cases opBal with
  | none => rw [initialCredits_none]
  | some v =>
    rw [initialCredits_some]
    split_ifs with h1 h2
    · simp
    · exact le_of_lt h2
    · simp

lemma totalCreditsOf_nonneg (txns : List Txn) (opBal : Option ℚ)
    (hamt : ∀ t ∈ txns, 0 ≤ t.amount) : 0 ≤ totalCreditsOf txns opBal := by
  unfold totalCreditsOf
  have h1 : 0 ≤ ((sortTxns txns).filterMap
      (fun t => if t.sign = Sign.Cr then some t.amount else none)).sum := by
    apply List.sum_nonneg
    intro x hx
    rcases List.mem_filterMap.mp hx with ⟨t, ht, hft⟩
    by_cases hs : t.sign = Sign.Cr
    · rw [if_pos hs] at hft
      cases hft
      exact hamt t ((mem_sortTxns txns t).mp ht)
    · rw [if_neg hs] at hft
      cases hft
  have h2 := initialCredits_nonneg opBal
  linarith

lemma debitsOf_nonneg (txns : List Txn) (opBal : Option ℚ)
    (hamt : ∀ t ∈ txns, 0 ≤ t.amount) :
    ∀ d ∈ debitsOf txns opBal, 0 ≤ d.amount := by
  intro d hd
  unfold debitsOf at hd
  rcases List.mem_append.mp hd with h | h
  · cases opBal with
    | none => rw [initialDebits_none] at h; simp at h
    | some v =>
      rw [initialDebits_some] at h
      by_cases hv : v < 0
      · rw [if_pos hv] at h
        simp at h
        rw [h]
        exact abs_nonneg v
      · rw [if_neg hv] at h
        simp at h
  · rcases List.mem_filterMap.mp h with ⟨t, ht, hft⟩
    by_cases hs : t.sign = Sign.Dr
    · rw [if_pos hs] at hft
      cases hft
      exact hamt t ((mem_sortTxns txns t).mp ht)
    · rw [if_neg hs] at hft
      cases hft

lemma fifoWalk_items (ds : List DebitItem) (rem : ℚ) (hrem : 0 ≤ rem) :
    ∀ item ∈ fifoWalk ds rem, 0 < item.amount ∧ item.amount ≤ item.originalAmount := by
  induction ds generalizing rem with
  | nil => intro item h; simp [fifoWalk] at h
  | cons d ds ih =>
    intro item h
    unfold fifoWalk at h
    by_cases hc : rem ≥ d.amount
    · rw [if_pos hc] at h
      exact ih (rem - d.amount) (by linarith) item h
    · rw [if_neg hc] at h
      push_neg at hc
      rcases List.mem_cons.mp h with h1 | h1
      · rw [h1]
        constructor
        · simp only
          linarith
        · simp only
          linarith
      · exact ih 0 le_rfl item h1

lemma fifoWalk_sum_le (ds : List DebitItem) (rem : ℚ) (hrem : 0 ≤ rem)
    (hds : ∀ d ∈ ds, 0 ≤ d.amount) :
    ((fifoWalk ds rem).map (fun i => i.amount)).sum ≤
      (ds.map (fun d => d.amount)).sum := by
  induction ds generalizing rem with
  | nil => simp [fifoWalk]
  | cons d ds ih =>
    have hd : 0 ≤ d.amount := hds d (List.mem_cons_self d ds)
    have hds' : ∀ x ∈ ds, 0 ≤ x.amount := fun x hx => hds x (List.mem_cons_of_mem d hx)
    unfold fifoWalk
    by_cases hc : rem ≥ d.amount
    · rw [if_pos hc]
      have := ih (rem - d.amount) (by linarith) hds'
      simp only [List.map_cons, List.sum_cons]
      linarith
    · rw [if_neg hc]
      have := ih 0 le_rfl hds'
      simp only [List.map_cons, List.sum_cons]
      linarith

lemma fifoWalk_covered (ds : List DebitItem) (rem : ℚ)
    (hds : ∀ d ∈ ds, 0 ≤ d.amount)
    (hcov : (ds.map (fun d => d.amount)).sum ≤ rem) :
    fifoWalk ds rem = [] := by
  induction ds generalizing rem with
  | nil => simp [fifoWalk]
  | cons d ds ih =>
    have hd : 0 ≤ d.amount := hds d (List.mem_cons_self d ds)
    have hds' : ∀ x ∈ ds, 0 ≤ x.amount := fun x hx => hds x (List.mem_cons_of_mem d hx)
    have hsum : 0 ≤ (ds.map (fun d => d.amount)).sum :=
      List.sum_nonneg (by
        intro x hx
        rcases List.mem_map.mp hx with ⟨y, hy, hxy⟩
        rw [← hxy]
        exact hds' y hy)
    simp only [List.map_cons, List.sum_cons] at hcov
    unfold fifoWalk
    rw [if_pos (by linarith : rem ≥ d.amount)]
    exact ih (rem - d.amount) hds' (by linarith)

lemma bucketsSum_addToBuckets (today : ℤ) (b : Buckets) (item : OverdueItem) :
    bucketsSum (addToBuckets today b item) = bucketsSum b + item.amount := by
  unfold addToBuckets bucketsSum
  split_ifs <;> simp <;> ring

lemma bucketsSum_foldl (today : ℤ) (l : List OverdueItem) (b : Buckets) :
    bucketsSum (l.foldl (addToBuckets today) b) =
      bucketsSum b + (l.map (fun i => i.amount)).sum := by
  induction l generalizing b with
  | nil => simp
  | cons i is ih =>
    rw [List.foldl_cons, ih, bucketsSum_addToBuckets]
    simp only [List.map_cons, List.sum_cons]
    ring

/-- Claim C1: for every transaction list (with the data-model invariant that
transaction amounts are non-negative) and parsed opening balance, every
overdue item emitted by `calculateAging`'s FIFO walk has positive amount, no
more than the original amount of the debit it came from; the sum of the four
ageing buckets equals the sum of all unpaid shortfalls, which never exceeds
the sum of all debit amounts (the synthetic opening debit included). -/
theorem calculateAging_fifo_invariants (today : ℤ) (txns : List Txn)
    (opBal : Option ℚ) (hamt : ∀ t ∈ txns, 0 ≤ t.amount) :
    (∀ item ∈ overdueOf txns opBal,
        0 < item.amount ∧ item.amount ≤ item.originalAmount)
    ∧ bucketsSum (calculateAging today txns opBal) =
        ((overdueOf txns opBal).map (fun i => i.amount)).sum
    ∧ ((overdueOf txns opBal).map (fun i => i.amount)).sum ≤
        ((debitsOf txns opBal).map (fun d => d.amount)).sum := by
  have hcred := totalCreditsOf_nonneg txns opBal hamt
  have hdeb := debitsOf_nonneg txns opBal hamt
  refine ⟨fifoWalk_items _ _ hcred, ?_, fifoWalk_sum_le _ _ hcred hdeb⟩
  unfold calculateAging
  rw [bucketsSum_foldl]
  simp [bucketsSum]

/-- Witness for C1 at a concrete input: one debit of 5, no credits. -/
theorem calculateAging_fifo_invariants_witness :
    (∀ item ∈ overdueOf [⟨0, 5, Sign.Dr⟩] none,
        0 < item.amount ∧ item.amount ≤ item.originalAmount)
    ∧ bucketsSum (calculateAging 0 [⟨0, 5, Sign.Dr⟩] none) =
        ((overdueOf [⟨0, 5, Sign.Dr⟩] none).map (fun i => i.amount)).sum
    ∧ ((overdueOf [⟨0, 5, Sign.Dr⟩] none).map (fun i => i.amount)).sum ≤
        ((debitsOf [⟨0, 5, Sign.Dr⟩] none).map (fun d => d.amount)).sum :=
  calculateAging_fifo_invariants 0 [⟨0, 5, Sign.Dr⟩] none (by decide)

lemma initialDebits_of_nonneg (opBal : Option ℚ)
    (hop : ∀ v, opBal = some v → 0 ≤ v) : initialDebits opBal = [] := by
  cases opBal with
  | none => exact initialDebits_none
  | some v =>
    rw [initialDebits_some, if_neg (not_lt.mpr (hop v rfl))]

lemma calculateAging_of_overdue_nil (today : ℤ) (txns : List Txn)
    (opBal : Option ℚ) (h : overdueOf txns opBal = []) :
    calculateAging today txns opBal = ⟨0, 0, 0, 0⟩ := by
  unfold calculateAging
  rw [h]
  rfl

/-- Counterexample for C2 as stated: with opening balance "-1000" and one
debit transaction dated before 2020-01-01 (timestamp 0), the synthetic
opening debit heads the FIFO debit list yet is not the oldest debit by date
(its anchor date is strictly later than the transaction's date). -/
theorem syntheticDebit_not_oldest_counterexample :
    debitsOf [⟨0, 600, Sign.Dr⟩] (some (-1000)) =
      [⟨anchorDate, 1000⟩, ⟨0, 600⟩]
    ∧ (0 : ℤ) < anchorDate := by
  constructor
  · rfl
  · decide

/-- Claim C2 (amended): a negative opening balance produces a synthetic debit
of its magnitude dated at the fixed anchor date, always placed at the head of
the FIFO debit list and therefore consumed first (though a transaction debit
dated before the anchor may be older by date); in particular for opening
balance "-1000", a debit of 600 dated 40 days ago and a credit of 1000 dated
10 days ago, the synthetic debit absorbs the entire 1000 credit and the
result is bucket 30-60 = 600 with all other buckets 0. -/
theorem syntheticDebit_first_and_example :
    (∀ (txns : List Txn) (v : ℚ), v < 0 →
        (debitsOf txns (some v)).head? = some ⟨anchorDate, |v|⟩)
    ∧ ∀ today : ℤ,
        calculateAging today
          [⟨today - 40 * msPerDay, 600, Sign.Dr⟩,
           ⟨today - 10 * msPerDay, 1000, Sign.Cr⟩] (some (-1000)) =
          ⟨0, 600, 0, 0⟩ := by
  constructor
  · intro txns v hv
    unfold debitsOf
    rw [initialDebits_some, if_pos hv]
    rfl
  · intro today
    have hno : ¬ (today - 10 * msPerDay < today - 40 * msPerDay) := by
      unfold msPerDay
      omega
    have hdd : diffDays today (today - 40 * msPerDay) = 40 := by
      unfold diffDays msPerDay
      have h40 : today - (today - 40 * 86400000) = 3456000000 := by ring
      rw [h40]
      rfl
    have habs : |(-1000 : ℚ)| = 1000 := by
      rw [abs_of_nonpos (by norm_num)]
      norm_num
    have hfm1 : List.filterMap
        (fun t => if t.sign = Sign.Cr then some t.amount else none)
        [(⟨today - 40 * msPerDay, 600, Sign.Dr⟩ : Txn),
         ⟨today - 10 * msPerDay, 1000, Sign.Cr⟩] = [1000] := by simp
    have hfm2 : List.filterMap
        (fun t => if t.sign = Sign.Dr then some (⟨t.date, t.amount⟩ : DebitItem) else none)
        [(⟨today - 40 * msPerDay, 600, Sign.Dr⟩ : Txn),
         ⟨today - 10 * msPerDay, 1000, Sign.Cr⟩] =
        [⟨today - 40 * msPerDay, 600⟩] := by simp
    unfold calculateAging overdueOf debitsOf totalCreditsOf sortTxns
    simp only [List.foldl_cons, List.foldl_nil, insertByDate, hno, if_false,
      initialDebits_some, initialCredits_some, habs, hfm1, hfm2]
    norm_num [fifoWalk, addToBuckets, hdd]

/-- Witness for the amended C2 at a concrete input: opening balance -5 with
no transactions puts the synthetic debit of 5 at the head of the debit list,
and the end-to-end example holds at the concrete instant 0. -/
theorem syntheticDebit_first_witness :
    (debitsOf [] (some (-5))).head? = some ⟨anchorDate, 5⟩
    ∧ calculateAging 0
        [⟨0 - 40 * msPerDay, 600, Sign.Dr⟩,
         ⟨0 - 10 * msPerDay, 1000, Sign.Cr⟩] (some (-1000)) =
        ⟨0, 600, 0, 0⟩ := by
  constructor
  · have h := syntheticDebit_first_and_example.1 [] (-5) (by norm_num)
    simpa using h
  · exact syntheticDebit_first_and_example.2 0

/-- Claim C6: with non-negative transaction amounts and a non-negative (or
absent) opening balance, total credits covering the total of debit amounts
leaves no overdue item and all buckets zero; an account with no debit-signed
transactions gives all-zero buckets; an empty transaction list gives all-zero
buckets. -/
theorem calculateAging_covered_zero (today : ℤ) (txns : List Txn)
    (opBal : Option ℚ) (hamt : ∀ t ∈ txns, 0 ≤ t.amount)
    (hop : ∀ v, opBal = some v → 0 ≤ v) :
    (((debitsOf txns opBal).map (fun d => d.amount)).sum ≤ totalCreditsOf txns opBal →
        overdueOf txns opBal = [] ∧ calculateAging today txns opBal = ⟨0, 0, 0, 0⟩)
    ∧ ((∀ t ∈ txns, t.sign ≠ Sign.Dr) →
        calculateAging today txns opBal = ⟨0, 0, 0, 0⟩)
    ∧ (txns = [] → calculateAging today txns opBal = ⟨0, 0, 0, 0⟩) := by
  refine ⟨?_, ?_, ?_⟩
  · intro hcov
    have hnil : overdueOf txns opBal = [] :=
      fifoWalk_covered _ _ (debitsOf_nonneg txns opBal hamt) hcov
    exact ⟨hnil, calculateAging_of_overdue_nil today txns opBal hnil⟩
  · intro hnodr
    have hdeb : debitsOf txns opBal = [] := by
      unfold debitsOf
      rw [initialDebits_of_nonneg opBal hop, List.nil_append]
      rw [List.filterMap_eq_nil_iff]
      intro t ht
      rw [if_neg (hnodr t ((mem_sortTxns txns t).mp ht))]
    apply calculateAging_of_overdue_nil
    unfold overdueOf
    rw [hdeb]
    rfl
  · intro hnil
    subst hnil
    have hdeb : debitsOf [] opBal = [] := by
      unfold debitsOf
      rw [initialDebits_of_nonneg opBal hop]
      rfl
    apply calculateAging_of_overdue_nil
    unfold overdueOf
    rw [hdeb]
    rfl

/-- Witness for C6 at a concrete input: one credit of 5, opening balance 3. -/
theorem calculateAging_covered_zero_witness :
    (((debitsOf [⟨0, 5, Sign.Cr⟩] (some 3)).map (fun d => d.amount)).sum ≤
        totalCreditsOf [⟨0, 5, Sign.Cr⟩] (some 3) →
      overdueOf [⟨0, 5, Sign.Cr⟩] (some 3) = [] ∧
      calculateAging 0 [⟨0, 5, Sign.Cr⟩] (some 3) = ⟨0, 0, 0, 0⟩)
    ∧ ((∀ t ∈ [(⟨0, 5, Sign.Cr⟩ : Txn)], t.sign ≠ Sign.Dr) →
        calculateAging 0 [⟨0, 5, Sign.Cr⟩] (some 3) = ⟨0, 0, 0, 0⟩)
    ∧ ([(⟨0, 5, Sign.Cr⟩ : Txn)] = [] →
        calculateAging 0 [⟨0, 5, Sign.Cr⟩] (some 3) = ⟨0, 0, 0, 0⟩) :=
  calculateAging_covered_zero 0 [⟨0, 5, Sign.Cr⟩] (some 3) (by decide)
    (fun v hv => by cases hv; norm_num)

/-- Claim C10: `calculateAging` ages an overdue item by the absolute
difference between today and the item's date, so an uncovered debit dated 40
days in the future is added to the 30-60 bucket rather than excluded as not
yet due. -/
theorem calculateAging_futureDebit :
    (∀ today delta : ℤ,
        diffDays today (today + delta) = diffDays today (today - delta))
    ∧ ∀ (today : ℤ) (a : ℚ), 0 < a →
        calculateAging today [⟨today + 40 * msPerDay, a, Sign.Dr⟩] none =
          ⟨0, a, 0, 0⟩ := by
  constructor
  · intro today delta
    unfold diffDays
    have h1 : today - (today + delta) = -delta := by ring
    have h2 : today - (today - delta) = delta := by ring
    rw [h1, h2, Int.natAbs_neg]
  · intro today a ha
    have hdd : diffDays today (today + 40 * msPerDay) = 40 := by
      unfold diffDays msPerDay
      have h40 : today - (today + 40 * 86400000) = -3456000000 := by ring
      rw [h40]
      rfl
    have hcond : ¬ ((0 : ℚ) + 0 ≥ a) := by
      push_neg
      linarith
    have hcond2 : ¬ ((0 : ℚ) ≥ a) := by
      push_neg
      linarith
    have hfm1 : List.filterMap
        (fun t => if t.sign = Sign.Cr then some t.amount else none)
        [(⟨today + 40 * msPerDay, a, Sign.Dr⟩ : Txn)] = [] := by simp
    have hfm2 : List.filterMap
        (fun t => if t.sign = Sign.Dr then some (⟨t.date, t.amount⟩ : DebitItem) else none)
        [(⟨today + 40 * msPerDay, a, Sign.Dr⟩ : Txn)] =
        [⟨today + 40 * msPerDay, a⟩] := by simp
    unfold calculateAging overdueOf debitsOf totalCreditsOf sortTxns
    simp only [List.foldl_cons, List.foldl_nil, insertByDate,
      initialDebits_none, initialCredits_none, hfm1, hfm2]
    norm_num [fifoWalk, addToBuckets, hdd, hcond, hcond2]

/-- Witness for C10 at a concrete input: an uncovered debit of 7 dated 40
days after instant 0 lands in the 30-60 bucket. -/
theorem calculateAging_futureDebit_witness :
    calculateAging 0 [⟨0 + 40 * msPerDay, 7, Sign.Dr⟩] none = ⟨0, 7, 0, 0⟩ :=
  calculateAging_futureDebit.2 0 7 (by norm_num)

/-- Starting accumulator of `calculateRunningBalance` (part_000 lines 37-41):
the parsed opening balance times -1 (0 when absent or NaN). -/
def rb0Start (opBal : Option ℚ) : ℚ :=
  match opBal with
  | some raw => raw * (-1)
  | none => 0

/-- Starting accumulator `runningVal` of `processLedgerData` (part_001 lines
54-61): the raw parsed opening balance (0 when absent or NaN). -/
def rb1Start (opBal : Option ℚ) : ℚ :=
  match opBal with
  | some raw => raw
  | none => 0

/-- Per-transaction movement in part_000 line 44:
`t.amount * (t.sign === 'Dr' ? 1 : -1)`. -/
def move0 (t : Txn) : ℚ := t.amount * (if t.sign = Sign.Dr then 1 else -1)

/-- Per-transaction movement in part_001 lines 74-75:
`move = t.sign === 'Dr' ? -t.amount : t.amount`. -/
def move1 (t : Txn) : ℚ := if t.sign = Sign.Dr then -t.amount else t.amount

/-- Trajectory of a running-balance accumulator: the signed value recorded
after each transaction of the list, given the per-transaction movement. -/
def signedTrail (f : Txn → ℚ) : List Txn → ℚ → List ℚ
  | [], _ => []
  | t :: ts, bal => (bal + f t) :: signedTrail f ts (bal + f t)

structure RBEntry where
  balance : ℚ
  balType : Sign
deriving DecidableEq, Repr

/-- `calculateRunningBalance(transactions, openingBalanceStr)` (part_000
lines 36-52): sort by date, walk with `balance += amt`, record
`{balance: Math.abs(balance), balType: balance >= 0 ? 'Dr' : 'Cr'}`, and
reverse for display. -/
def calculateRunningBalance (txns : List Txn) (opBal : Option ℚ) : List RBEntry :=
  ((signedTrail move0 (sortTxns txns) (rb0Start opBal)).map
    (fun b => ⟨|b|, if b ≥ 0 then Sign.Dr else Sign.Cr⟩)).reverse

/-- The `rows` produced by `processLedgerData` (part_001 lines 64-85): sort by
date, walk with `runningVal += move`, record `runningBalAbs = |runningVal|`
and `runningBalType = runningVal < 0 ? 'Dr' : 'Cr'`, chronological order. -/
def processLedgerRows (txns : List Txn) (opBal : Option ℚ) : List RBEntry :=
  (signedTrail move1 (sortTxns txns) (rb1Start opBal)).map
    (fun v => ⟨|v|, if v < 0 then Sign.Dr else Sign.Cr⟩)

lemma move0_eq_neg_move1 (t : Txn) : move0 t = -(move1 t) := by
  unfold move0 move1
  by_cases h : t.sign = Sign.Dr <;> simp [h]

lemma rb0Start_eq_neg_rb1Start (opBal : Option ℚ) :
    rb0Start opBal = -(rb1Start opBal) := by
  cases opBal with
  | none => simp [rb0Start, rb1Start]
  | some raw =>
    simp only [rb0Start, rb1Start]
    ring

lemma signedTrail_neg (l : List Txn) (s : ℚ) :
    signedTrail move0 l (-s) = (signedTrail move1 l s).map (fun v => -v) := by
  induction l generalizing s with
  | nil => rfl
  | cons t ts ih =>
    unfold signedTrail
    have hm : -s + move0 t = -(s + move1 t) := by
      rw [move0_eq_neg_move1]
      ring
    rw [List.map_cons, hm, ih (s + move1 t)]

/-- Claim C9: the two running-balance walks produce signed values that are
exact negations of each other at every step; consequently the displayed
entries agree on the absolute balance everywhere and on the Dr/Cr label at
every step where the value is nonzero, while a zero running balance is
labeled Dr by part_000's walk and Cr by part_001's. -/
theorem runningBalance_negation_equiv (txns : List Txn) (opBal : Option ℚ) :
    signedTrail move0 (sortTxns txns) (rb0Start opBal) =
      (signedTrail move1 (sortTxns txns) (rb1Start opBal)).map (fun v => -v)
    ∧ List.Forall₂
        (fun e0 e1 : RBEntry =>
          e0.balance = e1.balance
          ∧ (e1.balance ≠ 0 → e0.balType = e1.balType)
          ∧ (e1.balance = 0 → e0.balType = Sign.Dr ∧ e1.balType = Sign.Cr))
        (calculateRunningBalance txns opBal).reverse
        (processLedgerRows txns opBal) := by
  have hneg : signedTrail move0 (sortTxns txns) (rb0Start opBal) =
      (signedTrail move1 (sortTxns txns) (rb1Start opBal)).map (fun v => -v) := by
    rw [rb0Start_eq_neg_rb1Start]
    exact signedTrail_neg (sortTxns txns) (rb1Start opBal)
  refine ⟨hneg, ?_⟩
  unfold calculateRunningBalance processLedgerRows
  rw [List.reverse_reverse, hneg, List.map_map]
  rw [List.forall₂_map_left_iff, List.forall₂_map_right_iff]
  rw [List.forall₂_same]
  intro v _
  simp only [Function.comp]
  refine ⟨abs_neg v, ?_, ?_⟩
  · intro hne
    have hv : |v| ≠ 0 := hne
    have hv0 : v ≠ 0 := fun h => hv (by rw [h]; simp)
    rcases lt_or_gt_of_ne hv0 with h | h
    · rw [if_pos (by linarith : -v ≥ 0), if_pos h]
    · rw [if_neg (by simp only [ge_iff_le]; push_neg; linarith), if_neg (by push_neg; linarith)]
  · intro hz
    have hv0 : v = 0 := abs_eq_zero.mp hz
    subst hv0
    norm_num

/-- Witness for C9 at a concrete input: a single debit of 5 with opening
balance -3. -/
theorem runningBalance_negation_equiv_witness :
    signedTrail move0 (sortTxns [⟨0, 5, Sign.Dr⟩]) (rb0Start (some (-3))) =
      (signedTrail move1 (sortTxns [⟨0, 5, Sign.Dr⟩]) (rb1Start (some (-3)))).map
        (fun v => -v)
    ∧ List.Forall₂
        (fun e0 e1 : RBEntry =>
          e0.balance = e1.balance
          ∧ (e1.balance ≠ 0 → e0.balType = e1.balType)
          ∧ (e1.balance = 0 → e0.balType = Sign.Dr ∧ e1.balType = Sign.Cr))
        (calculateRunningBalance [⟨0, 5, Sign.Dr⟩] (some (-3))).reverse
        (processLedgerRows [⟨0, 5, Sign.Dr⟩] (some (-3))) :=
  runningBalance_negation_equiv [⟨0, 5, Sign.Dr⟩] (some (-3))

/-- JS date values: `some t` a valid timestamp (ms), `none` an Invalid Date. -/
abbrev JSDate := Option ℤ

/-- JS `split(sep)` on a character list: structural model of
`dateStr.split('-')` (empty string gives one empty part, like JS). -/
def splitOnChar (sep : Char) : List Char → List (List Char)
  | [] => [[]]
  | c :: cs =>
    match splitOnChar sep cs with
    | [] => [[c]]
    | p :: ps => if c = sep then [] :: p :: ps else (c :: p) :: ps

def isJSSpace (c : Char) : Bool :=
  c = ' ' || c = '\t' || c = '\n' || c = '\r'

/-- Leading/trailing whitespace strip, as JS `parseInt` and `Number` do. -/
def trimChars (cs : List Char) : List Char :=
  ((cs.dropWhile isJSSpace).reverse.dropWhile isJSSpace).reverse

def leadingDigits (cs : List Char) : List Char :=
  cs.takeWhile (fun c => c.isDigit)

def digitsToNat (cs : List Char) : ℕ :=
  cs.foldl (fun acc c => 10 * acc + (c.toNat - 48)) 0

/-- JS `parseInt(s)` in base 10: skip whitespace, optional sign, maximal
leading digit run (trailing garbage ignored); `none` models NaN. -/
def jsParseInt (s : String) : Option ℤ :=
  match trimChars s.toList with
  | '-' :: rest =>
    if leadingDigits rest = [] then none
    else some (-(digitsToNat (leadingDigits rest) : ℤ))
  | '+' :: rest =>
    if leadingDigits rest = [] then none
    else some ((digitsToNat (leadingDigits rest) : ℤ))
  | rest =>
    if leadingDigits rest = [] then none
    else some ((digitsToNat (leadingDigits rest) : ℤ))

def decimalDigitsOnly (cs : List Char) : Bool :=
  cs.all (fun c => c.isDigit)

/-- Model of the JS numeric-string test `!isNaN(dateStr)`: after trimming, an
empty string, or an optionally signed decimal numeral (digits with at most
one point, at least one digit). Exotic `Number` forms (exponents, hex,
Infinity) are outside the date strings this system sees and are not
modeled. -/
def jsIsNumericString (s : String) : Bool :=
  let t := trimChars s.toList
  if t = [] then true
  else
    let body := match t with
      | '-' :: rest => rest
      | '+' :: rest => rest
      | rest => rest
    match splitOnChar '.' body with
    | [intPart] => !intPart.isEmpty && decimalDigitsOnly intPart
    | [intPart, fracPart] =>
        (!intPart.isEmpty || !fracPart.isEmpty)
        && decimalDigitsOnly intPart && decimalDigitsOnly fracPart
    | _ => false

/-- The month-abbreviation table of `parseDate` (utils.js lines 27-30),
0-based month index; `none` models an absent key (undefined). -/
def monthIndex (s : String) : Option ℤ :=
  if s = "Jan" then some 0 else if s = "Feb" then some 1
  else if s = "Mar" then some 2 else if s = "Apr" then some 3
  else if s = "May" then some 4 else if s = "Jun" then some 5
  else if s = "Jul" then some 6 else if s = "Aug" then some 7
  else if s = "Sep" then some 8 else if s = "Oct" then some 9
  else if s = "Nov" then some 10 else if s = "Dec" then some 11
  else none

/-- Days from 1970-01-01 of the civil date y/m/d (m 1-based), the standard
era-based formula; all quantities here are non-negative in the dates this
system handles, so the divisions agree with mathematical floor. -/
def daysFromCivil (y m d : ℤ) : ℤ :=
  let y2 := if m ≤ 2 then y - 1 else y
  let era := Int.fdiv y2 400
  let yoe := y2 - era * 400
  let mp := if m > 2 then m - 3 else m + 9
  let doy := (153 * mp + 2) / 5 + d - 1
  let doe := yoe * 365 + yoe / 4 - yoe / 100 + doy
  era * 146097 + doe - 719468

/-- Model of `new Date(y, m, d)` with numeric arguments: month 0-based with
overflow normalized into the year, midnight timestamp. The reference engine
applies the local timezone; this model uses UTC (no claim depends on the
fixed zone offset). -/
def jsMakeDate (y m d : ℤ) : ℤ :=
  let ym := y * 12 + m
  let yN := Int.fdiv ym 12
  let mN := ym - 12 * yN
  daysFromCivil yN (mN + 1) d * msPerDay

/-- `new Date(y, m, d)` over possibly-NaN arguments: any NaN argument
(`none`) yields an Invalid Date. -/
def jsNewDate (y m d : Option ℤ) : JSDate :=
  match y, m, d with
  | some yv, some mv, some dv => some (jsMakeDate yv mv dv)
  | _, _, _ => none

/-- `s.substr(a, b)` of JS on our character-list view of strings. -/
def substrJS (s : String) (a b : ℕ) : String :=
  String.mk ((s.toList.drop a).take b)

/-- Model of the engine's generic `new Date(dateStr)` parser used as the last
attempt: accepts the ISO date-only form YYYY-MM-DD and rejects other strings.
The engine's generic parsing is implementation-defined, so the theorems
quantify over an arbitrary generic parser; this executable model instantiates
them at concrete inputs. -/
def genericDateModel (s : String) : JSDate :=
  match splitOnChar '-' s.toList with
  | [ys, ms, ds] =>
    if ys.length = 4 ∧ ms.length = 2 ∧ ds.length = 2
        ∧ decimalDigitsOnly ys ∧ decimalDigitsOnly ms ∧ decimalDigitsOnly ds then
      some (jsMakeDate (digitsToNat ys) ((digitsToNat ms : ℤ) - 1) (digitsToNat ds))
    else none
  | _ => none

/-- `parseDate` of utils.js lines 14-34 (same logic at lines 117-144): empty
input gives the current date `now`; an 8-character numeric string is read as
YYYYMMDD; a 3-part hyphenated string as DD-Mon-YY (an unrecognized month or
non-numeric part making the date invalid); anything else goes to the generic
parser. The result is a JS date value, possibly invalid. -/
def parseDate1 (genericParse : String → JSDate) (now : ℤ) (s : String) : JSDate :=
  if s = "" then some now
  else if s.length = 8 ∧ jsIsNumericString s then
    jsNewDate (jsParseInt (substrJS s 0 4))
      ((jsParseInt (substrJS s 4 2)).map (fun m => m - 1))
      (jsParseInt (substrJS s 6 2))
  else
    let parts := splitOnChar '-' s.toList
    if parts.length = 3 then
      jsNewDate ((jsParseInt (String.mk (parts.getD 2 []))).map (fun y => 2000 + y))
        (monthIndex (String.mk (parts.getD 1 [])))
        (jsParseInt (String.mk (parts.getD 0 [])))
    else genericParse s

/-- The guarded three-part attempt of `parseDate` at utils.js lines 253-265:
succeeds only when the month abbreviation is recognized and the day and year
parse as numbers. -/
def threePartAttempt (s : String) : JSDate :=
  let parts := splitOnChar '-' s.toList
  if parts.length = 3 then
    match jsParseInt (String.mk (parts.getD 0 [])),
        monthIndex (String.mk (parts.getD 1 [])),
        jsParseInt (String.mk (parts.getD 2 [])) with
    | some d, some mi, some yy => some (jsMakeDate (2000 + yy) mi d)
    | _, _, _ => none
  else none

/-- `parseDate` of utils.js lines 249-273: empty input gives `now`; then the
guarded DD-Mon-YY attempt; then the generic parser, falling back to `now`
when its result is invalid. Always a valid date. -/
def parseDate3 (genericParse : String → JSDate) (now : ℤ) (s : String) : ℤ :=
  if s = "" then now
  else
    match threePartAttempt s with
    | some t => t
    | none =>
      match genericParse s with
      | some t => t
      | none => now

lemma genericDateModel_anchor : genericDateModel "2020-01-01" = some anchorDate := by
  decide

/-- Counterexample for C7 as stated: at input "xyz" every attempt of the
lines-14-34 parseDate fails (the generic parser failing as engines do on this
string), yet it returns an Invalid Date, not the current date. -/
theorem parseDate_invalid_counterexample :
    parseDate1 genericDateModel 0 "xyz" = none
    ∧ parseDate1 genericDateModel 0 "xyz" ≠ some 0 := by
  constructor
  · decide
  · decide

/-- Claim C7 (amended): parseDate never throws (it is a total function of its
input in every variant); the lines-249-273 variant returns the current date
whenever the input is empty or both of its attempts (guarded DD-Mon-YY, then
generic parsing) fail; the lines-14-34 variant, whose attempts are 8-digit
YYYYMMDD, DD-Mon-YY, then generic parsing, returns the current date only for
empty input and yields an invalid date value when the generic parse fails or
the month abbreviation is unrecognized. -/
theorem parseDate_fallback_amended :
    (∀ (gp : String → JSDate) (now : ℤ),
        parseDate1 gp now "" = some now ∧ parseDate3 gp now "" = now)
    ∧ (∀ (gp : String → JSDate) (now : ℤ) (s : String),
        threePartAttempt s = none → gp s = none → parseDate3 gp now s = now)
    ∧ (∀ (gp : String → JSDate) (now : ℤ) (s : String),
        s ≠ "" → ¬(s.length = 8 ∧ jsIsNumericString s) →
        (splitOnChar '-' s.toList).length ≠ 3 → gp s = none →
        parseDate1 gp now s = none)
    ∧ (∀ (gp : String → JSDate) (now : ℤ) (s : String),
        s ≠ "" → ¬(s.length = 8 ∧ jsIsNumericString s) →
        (splitOnChar '-' s.toList).length = 3 →
        monthIndex (String.mk ((splitOnChar '-' s.toList).getD 1 [])) = none →
        parseDate1 gp now s = none) := by
  refine ⟨?_, ?_, ?_, ?_⟩
  · intro gp now
    constructor
    · simp [parseDate1]
    · simp [parseDate3]
  · intro gp now s h3 hgp
    unfold parseDate3
    rw [h3, hgp]
    simp
  · intro gp now s hne hlen8 hparts hgp
    unfold parseDate1
    rw [if_neg hne, if_neg hlen8, if_neg hparts]
    exact hgp
  · intro gp now s hne hlen8 hparts hmon
    unfold parseDate1
    rw [if_neg hne, if_neg hlen8, if_pos hparts, hmon]
    cases hy : (jsParseInt (String.mk ((splitOnChar '-' s.toList).getD 2 []))).map
        (fun y => 2000 + y) with
    | none =>
      cases hd : jsParseInt (String.mk ((splitOnChar '-' s.toList).getD 0 [])) with
      | none => rfl
      | some dv => rfl
    | some yv =>
      cases hd : jsParseInt (String.mk ((splitOnChar '-' s.toList).getD 0 [])) with
      | none => rfl
      | some dv => rfl

/-- Witness for the amended C7 at a concrete input: for "zz" (all attempts
fail under the generic-parser model) the lines-249-273 variant returns the
current date 5 while the lines-14-34 variant returns an invalid date. -/
theorem parseDate_fallback_witness :
    parseDate3 genericDateModel 5 "zz" = 5
    ∧ parseDate1 genericDateModel 5 "zz" = none := by
  constructor
  · exact parseDate_fallback_amended.2.1 genericDateModel 5 "zz" (by decide) (by decide)
  · exact parseDate_fallback_amended.2.2.1 genericDateModel 5 "zz" (by decide)
      (by decide) (by decide) (by decide)

/-- Lookup in the name → parent map: JS `parentMap.get(name)` with a missing
key (undefined) collapsed to "", which is equally falsy in the walks'
guards and never equal to a real target or group name. -/
def pmGet (pm : List (String × String)) (k : String) : String :=
  match pm.lookup k with
  | some v => v
  | none => ""

structure TraceState where
  current : String
  bucket : String
  depth : ℕ
  result : Option (Option String)
deriving DecidableEq, Repr

/-- One guard-check-and-iterate step of the `traceParent` while loop of
server.js lines 234-246. Once the loop has returned (`result` set) the step
is the identity. Otherwise the guard `current && depth < 15` is checked —
on exit the return value is `foundRoot ? bucket : null` and `foundRoot` is
only set by the break on reaching the target, so a guard exit returns null —
then the body runs: reaching the target root returns the current bucket;
otherwise the bucket picks up the current name when it is a known group and
the walk moves to the parent with the depth incremented. -/
def traceStep (pm : List (String × String)) (kg : List String) (target : String)
    (st : TraceState) : TraceState :=
  match st.result with
  | some _ => st
  | none =>
    if st.current = "" ∨ 15 ≤ st.depth then { st with result := some none }
    else if st.current = target then { st with result := some (some st.bucket) }
    else
      { current := pmGet pm st.current,
        bucket := if kg.contains st.current then st.current else st.bucket,
        depth := st.depth + 1,
        result := none }

/-- Loop entry state of `traceParent`: at the start name, fallback bucket
"No-Group", depth 0. -/
def initTrace (start : String) : TraceState := ⟨start, "No-Group", 0, none⟩

/-- `traceParent(startName, targetRoot)` of server.js lines 234-246: run the
loop to completion; 16 steps always suffice (`traceParent_depthBound`), and
the result is null (`none`) when the target root is not reached within the
15-hop depth bound. -/
def serverTraceParent (pm : List (String × String)) (kg : List String)
    (target start : String) : Option String :=
  (((traceStep pm kg target)^[16]) (initTrace start)).result.getD none

lemma traceStep_fixed (pm : List (String × String)) (kg : List String)
    (target : String) (st : TraceState) (r : Option String)
    (h : st.result = some r) : traceStep pm kg target st = st := by
  unfold traceStep
  rw [h]

lemma traceStep_iterate_fixed (pm : List (String × String)) (kg : List String)
    (target : String) (st : TraceState) (r : Option String)
    (h : st.result = some r) :
    ∀ n, ((traceStep pm kg target)^[n]) st = st := by
  intro n
  induction n with
  | zero => rfl
  | succ n ih =>
    rw [Function.iterate_succ_apply, traceStep_fixed pm kg target st r h, ih]

lemma traceStep_depth (pm : List (String × String)) (kg : List String)
    (target : String) (st : TraceState) (h : st.result = none)
    (h2 : (traceStep pm kg target st).result = none) :
    (traceStep pm kg target st).depth = st.depth + 1 := by
  unfold traceStep at h2 ⊢
  rw [h] at h2 ⊢
  by_cases hg : st.current = "" ∨ 15 ≤ st.depth
  · rw [if_pos hg] at h2
    simp at h2
  · rw [if_neg hg] at h2 ⊢
    by_cases ht : st.current = target
    · rw [if_pos ht] at h2
      simp at h2
    · rw [if_neg ht]

lemma traceSteps_done (pm : List (String × String)) (kg : List String)
    (target : String) :
    ∀ (n : ℕ) (st : TraceState), 1 ≤ n → 16 ≤ st.depth + n →
      ((((traceStep pm kg target)^[n]) st).result).isSome := by
  intro n
  induction n with
  | zero =>
    intro st h1 _
    exact absurd h1 (by norm_num)
  | succ n ih =>
    intro st h1 hd
    cases hres : st.result with
    | some r =>
      rw [traceStep_iterate_fixed pm kg target st r hres (n + 1), hres]
      rfl
    | none =>
      rw [Function.iterate_succ_apply]
      rcases Nat.eq_zero_or_pos n with hn | hn
      · subst hn
        show ((traceStep pm kg target st).result).isSome
        unfold traceStep
        rw [hres, if_pos (Or.inr (by omega))]
        rfl
      · cases hres2 : (traceStep pm kg target st).result with
        | some r =>
          rw [traceStep_iterate_fixed pm kg target _ r hres2 n, hres2]
          rfl
        | none =>
          apply ih
          · omega
          · rw [traceStep_depth pm kg target st hres hres2]
            omega

/-- Claim C5: for every parent mapping, known-group set, target and start —
cyclic mappings included — the bounded `traceParent` walk of server.js is
finished within the configured 15-hop depth bound (16 guard checks), and on
the cyclic mapping X→Y→X, where the root is never reached, it returns the
not-found result instead of looping forever. -/
theorem traceParent_depthBound :
    (∀ (pm : List (String × String)) (kg : List String) (target start : String),
        ((((traceStep pm kg target)^[16]) (initTrace start)).result).isSome)
    ∧ serverTraceParent [("X", "Y"), ("Y", "X")] [] "Sundry Debtors" "X" = none := by
  constructor
  · intro pm kg target start
    exact traceSteps_done pm kg target 16 (initTrace start) (by norm_num)
      (by simp [initTrace])
  · decide

/-- `getGroupBucket(startName)` of part_002 lines 314-321, with an explicit
iteration bound `fuel` standing in for the source's unbounded while loop
(which runs as long as `current` is truthy): return the first name on the
parent chain found in the known groups, else "No-Group". -/
def getGroupBucket (pm : List (String × String)) (kg : List String) :
    ℕ → String → String
  | 0, _ => "No-Group"
  | fuel + 1, current =>
    if current = "" then "No-Group"
    else if kg.contains current then current
    else getGroupBucket pm kg fuel (pmGet pm current)

/-- The ancestor chain the group-bucket walk visits: the start name followed
by parents, stopping at a falsy name or at the fuel bound. -/
def ancestorChain (pm : List (String × String)) : ℕ → String → List String
  | 0, _ => []
  | fuel + 1, current =>
    if current = "" then []
    else current :: ancestorChain pm fuel (pmGet pm current)

/-- Counterexample for C4 as stated: on the parent chain A→B→C→Receivables
with both B and C in the known groups, the bounded walk of server.js
(`traceParent`) resolves A to C — the known group encountered last before the
root — not to the first ancestor B as the claim states. -/
theorem serverTrace_lastKnown_counterexample :
    serverTraceParent [("A", "B"), ("B", "C"), ("C", "Receivables")] ["B", "C"]
      "Receivables" "A" = some "C"
    ∧ serverTraceParent [("A", "B"), ("B", "C"), ("C", "Receivables")] ["B", "C"]
      "Receivables" "A" ≠ some "B" := by
  constructor
  · decide
  · decide

/-- Claim C4 (amended): the part_002 group-bucket walk `getGroupBucket`
returns the first ancestor name (inclusive of the start name) on the walked
chain that belongs to the known groups, and the fallback "No-Group" when no
walked ancestor is known; in particular for the chain A→B→C→Receivables with
B and C in the known groups it resolves A to B. The server.js bounded
`traceParent` walk instead keeps the known group encountered last before the
root (counterexample above) and returns null when the root is not reached. -/
theorem getGroupBucket_nearest_amended :
    (∀ (pm : List (String × String)) (kg : List String) (fuel : ℕ) (start : String),
        getGroupBucket pm kg fuel start =
          ((ancestorChain pm fuel start).find? (fun c => kg.contains c)).getD "No-Group")
    ∧ getGroupBucket [("A", "B"), ("B", "C"), ("C", "Receivables")] ["B", "C"]
        10 "A" = "B" := by
  constructor
  · intro pm kg fuel
    induction fuel with
    | zero => intro start; rfl
    | succ fuel ih =>
      intro start
      unfold getGroupBucket ancestorChain
      by_cases h0 : start = ""
      · rw [if_pos h0, if_pos h0]
        rfl
      · rw [if_neg h0, if_neg h0]
        by_cases hk : kg.contains start = true
        · rw [if_pos hk, List.find?_cons_of_pos _ hk]
          rfl
        · rw [if_neg hk, List.find?_cons_of_neg _ (by simpa using hk)]
          exact ih (pmGet pm start)
  · decide

structure CachedLedger where
  name : String
  amount : ℚ
  type : Sign
  transactions : List Txn
deriving DecidableEq, Repr

/-- The `newItem` built for a ledger message (server.js lines 256-267):
zeroed `{amount: 0, type: 'Dr', transactions: []}` to start; a cached entry
found in `localMap` keeps its amount/sign/transactions; otherwise a present
opening balance seeds amount and sign from its signed parsed value. -/
def newItemOf (name : String) (existing : Option CachedLedger)
    (opBal : Option ℚ) : CachedLedger :=
  match existing with
  | some e => ⟨name, e.amount, e.type, e.transactions⟩
  | none =>
    match opBal with
    | some v => ⟨name, |v|, if v < 0 then Sign.Dr else Sign.Cr, []⟩
    | none => ⟨name, 0, Sign.Dr, []⟩

/-- The reconciliation decision of server.js lines 271-291: with
`tallyBalSigned` the remote signed balance (0 when absent) and `localSigned`
derived from the item's sign and amount, flag when
`|tallyBalSigned - localSigned| > 0.1`; otherwise force a sync when the
remote balance is non-trivial but the item has no recorded transactions
(the source's `!needsSync && ...` guard is the else of the first test). -/
def needsSyncOf (name : String) (existing : Option CachedLedger)
    (opBal : Option ℚ) (remote : Option ℚ) : Bool :=
  if (0.1 : ℚ) < |remote.getD 0 -
      (if (newItemOf name existing opBal).type = Sign.Dr
        then -(newItemOf name existing opBal).amount
        else (newItemOf name existing opBal).amount)| then true
  else if (0.1 : ℚ) < |remote.getD 0|
      ∧ (newItemOf name existing opBal).transactions = [] then true
  else false

/-- localSigned as the amended claim words it: signed cached balance when the
cached account is present, else the signed parsed opening balance of the
ledger, 0 when that too is absent. -/
def claimLocalSigned (existing : Option CachedLedger) (opBal : Option ℚ) : ℚ :=
  match existing with
  | some e => if e.type = Sign.Dr then -e.amount else e.amount
  | none => opBal.getD 0

/-- The claim's "cached account has no recorded transactions": vacuously true
for an absent cached account. -/
def claimNoRecordedTx : Option CachedLedger → Prop
  | some e => e.transactions = []
  | none => True

lemma ifSync_shape (A B : Prop) [Decidable A] [Decidable B] :
    (if A then true else if B then true else false) = true ↔ (A ∨ B) := by
  split_ifs with hA hB
  · simp [hA]
  · simp [hA, hB]
  · simp [hA, hB]

lemma needsSync_iff (name : String) (existing : Option CachedLedger)
    (opBal : Option ℚ) (remote : Option ℚ) :
    needsSyncOf name existing opBal remote = true ↔
      ((0.1 : ℚ) < |remote.getD 0 - claimLocalSigned existing opBal|
        ∨ ((0.1 : ℚ) < |remote.getD 0| ∧ claimNoRecordedTx existing)) := by
  have hloc : (if (newItemOf name existing opBal).type = Sign.Dr
      then -(newItemOf name existing opBal).amount
      else (newItemOf name existing opBal).amount) =
      claimLocalSigned existing opBal := by
    cases existing with
    | some e => rfl
    | none =>
      cases opBal with
      | none => simp [newItemOf, claimLocalSigned]
      | some v =>
        by_cases hv : v < 0
        · simp [newItemOf, claimLocalSigned, hv, abs_of_neg hv]
        · simp [newItemOf, claimLocalSigned, hv, abs_of_nonneg (not_lt.mp hv)]
  have htx : ((newItemOf name existing opBal).transactions = []) ↔
      claimNoRecordedTx existing := by
    cases existing with
    | some e => exact Iff.rfl
    | none => cases opBal <;> simp [newItemOf, claimNoRecordedTx]
  unfold needsSyncOf
  rw [hloc, ifSync_shape]
  exact or_congr Iff.rfl (and_congr Iff.rfl htx)

/-- Counterexample for C3 as stated: a ledger with no cached entry, opening
balance string parsing to -200, and no remote balance is flagged for resync
by the code (its local signed balance is seeded as -200 from the opening
balance), while the claim's criterion with localSigned = 0 for an absent
cached account (both |0-0| and |0| within the 0.1 tolerance) says false. -/
theorem needsSync_absent_opening_counterexample :
    needsSyncOf "N" none (some (-200)) none = true
    ∧ ¬ ((0.1 : ℚ) < |(0 : ℚ) - 0|)
    ∧ ¬ ((0.1 : ℚ) < |(0 : ℚ)|) := by
  refine ⟨?_, by norm_num, by norm_num⟩
  rw [needsSync_iff]
  left
  have h1 : claimLocalSigned none (some (-200)) = -200 := rfl
  rw [h1]
  have h2 : ((none : Option ℚ)).getD 0 - (-200 : ℚ) = 200 := by norm_num
  rw [h2]
  rw [abs_of_nonneg (by norm_num : (0 : ℚ) ≤ 200)]
  norm_num

/-- Claim C3 (amended): `needsFullResync` is true exactly when
`|remoteSigned - localSigned| > 0.1` or `|remoteSigned| > 0.1` while the
cached account has no recorded transactions, where localSigned is -amount
for a Debit-sign cached balance, +amount for Credit, and — when the cached
account is absent — the signed parsed opening balance of the ledger (0 when
that too is absent); remoteSigned is the remote signed balance, 0 when
absent. In particular cached {amount 100, Dr} with transactions against
remote -100.05 gives false, against remote -100.2 gives true, and an absent
cached account against remote 500 gives true whatever the opening balance. -/
theorem needsSync_criterion_amended :
    (∀ (name : String) (existing : Option CachedLedger) (opBal remote : Option ℚ),
        needsSyncOf name existing opBal remote = true ↔
          ((0.1 : ℚ) < |remote.getD 0 - claimLocalSigned existing opBal|
            ∨ ((0.1 : ℚ) < |remote.getD 0| ∧ claimNoRecordedTx existing)))
    ∧ needsSyncOf "P" (some ⟨"P", 100, Sign.Dr, [⟨0, 1, Sign.Dr⟩]⟩) none
        (some (-100.05)) = false
    ∧ needsSyncOf "P" (some ⟨"P", 100, Sign.Dr, [⟨0, 1, Sign.Dr⟩]⟩) none
        (some (-100.2)) = true
    ∧ ∀ opBal : Option ℚ, needsSyncOf "Q" none opBal (some 500) = true := by
  refine ⟨needsSync_iff, ?_, ?_, ?_⟩
  · rw [Bool.eq_false_iff]
    intro hcontra
    rw [needsSync_iff] at hcontra
    rcases hcontra with hA | hB
    · have h1 : claimLocalSigned (some ⟨"P", 100, Sign.Dr, [⟨0, 1, Sign.Dr⟩]⟩) none
          = -100 := by simp [claimLocalSigned]
      rw [h1] at hA
      have h2 : ((some (-100.05 : ℚ)).getD 0) - (-100 : ℚ) = -0.05 := by norm_num
      rw [h2, abs_of_nonpos (by norm_num : (-0.05 : ℚ) ≤ 0)] at hA
      norm_num at hA
    · have := hB.2
      simp [claimNoRecordedTx] at this
  · rw [needsSync_iff]
    left
    have h1 : claimLocalSigned (some ⟨"P", 100, Sign.Dr, [⟨0, 1, Sign.Dr⟩]⟩) none
        = -100 := by simp [claimLocalSigned]
    rw [h1]
    have h2 : ((some (-100.2 : ℚ)).getD 0) - (-100 : ℚ) = -0.2 := by norm_num
    rw [h2, abs_of_nonpos (by norm_num : (-0.2 : ℚ) ≤ 0)]
    norm_num
  · intro opBal
    rw [needsSync_iff]
    right
    constructor
    · have h2 : ((some (500 : ℚ)).getD 0) = 500 := rfl
      rw [h2, abs_of_nonneg (by norm_num : (0 : ℚ) ≤ 500)]
      norm_num
    · simp [claimNoRecordedTx]

structure LedgerMsg where
  name : String
  parent : String
  openingBalance : Option ℚ
deriving DecidableEq, Repr

structure Snapshot where
  debtors : List (String × List CachedLedger)
  creditors : List CachedLedger
deriving DecidableEq, Repr

/-- `loadData()`'s default when no data file exists (server.js lines 33-38). -/
def emptySnapshot : Snapshot := ⟨[], []⟩

/-- The persisted snapshot file (credit-data.json); `none` when absent. -/
structure Store where
  file : Option Snapshot
deriving DecidableEq, Repr

/-- KNOWN_GROUPS of server.js lines 18-23, in declaration order. -/
def knownGroupsList : List String :=
  ["TIKIRI & KASIPUR LINE", "Balimela,Chitrokunda,Malkangiri",
   "DURGI-KD-THERUBALI-JK LINE", "GUDARI & GUNUPUR", "Jeypur", "Jk Line",
   "KALYAN SINGHPUR LINE", "Koraput", "MUNIGUDA & B.CTC LINE",
   "Parlakhimundi Line", "Parvathipuram", "PHULBAANI LINE", "RAYAGADA LOCAL",
   "Srikakulam Line", "STAFF"]

/-- The environment a sync cycle runs against: connectivity, the outcomes of
the structure and balance fetches (`Except.error` models a thrown
`Tally API Error`), and the per-ledger voucher fetch — which never throws,
server.js lines 197-200 catch and return an empty list. -/
structure SyncEnv where
  tallyUp : Bool
  groupsRaw : Except String (List (String × String))
  ledgersRaw : Except String (List LedgerMsg)
  balances : Except String (List (String × ℚ))
  vouchers : String → List Txn

/-- Flattened name → item pairs of the previous snapshot, as `localMap` is
built from old debtors and creditors (server.js lines 212-216). -/
def localPairs (s : Snapshot) : List (String × CachedLedger) :=
  ((s.debtors.map Prod.snd).flatten ++ s.creditors).map (fun it => (it.name, it))

/-- Lookup with the `Map.set` convention that a later binding wins. -/
def lookupLast (l : List (String × CachedLedger)) (k : String) : Option CachedLedger :=
  l.reverse.lookup k

/-- Lookup in the signed-balance map, later `set` winning. -/
def balGet (l : List (String × ℚ)) (k : String) : Option ℚ :=
  l.reverse.lookup k

/-- The final per-ledger item after the batch fetch (server.js lines
306-323): a flagged ledger gets the freshly fetched transactions and
amount/sign from the remote signed balance (`tallyBalances.get(name) || 0`,
zero defaulting to Dr); an unflagged ledger keeps its `newItem` unchanged. -/
def finalItemOf (env : SyncEnv) (lp : List (String × CachedLedger))
    (bals : List (String × ℚ)) (m : LedgerMsg) : CachedLedger :=
  if needsSyncOf m.name (lookupLast lp m.name) m.openingBalance (balGet bals m.name) then
    ⟨m.name, |(balGet bals m.name).getD 0|,
      if (balGet bals m.name).getD 0 < 0 then Sign.Dr
      else if (balGet bals m.name).getD 0 > 0 then Sign.Cr else Sign.Dr,
      env.vouchers m.name⟩
  else newItemOf m.name (lookupLast lp m.name) m.openingBalance

inductive Dest
  | debtor (bucket : String)
  | creditor
  | excluded
deriving DecidableEq, Repr

/-- Classification of a ledger by its parent (server.js lines 293-299): a
ledger tracing to "Sundry Debtors" goes to its traced bucket, else one
tracing to "Sundry Creditors" is a creditor, else it is excluded. -/
def destOf (pm : List (String × String)) (parent : String) : Dest :=
  match serverTraceParent pm knownGroupsList "Sundry Debtors" parent with
  | some b => Dest.debtor b
  | none =>
    match serverTraceParent pm knownGroupsList "Sundry Creditors" parent with
    | some _ => Dest.creditor
    | none => Dest.excluded

/-- The bucket key actually pushed to (server.js lines 294-296): the traced
bucket when it is a key of `debtorBuckets` (every known group and
"No-Group" are), else "No-Group". -/
def bucketKey (b : String) : String :=
  if (knownGroupsList ++ ["No-Group"]).contains b then b else "No-Group"

/-- Assemble the new snapshot from the fetched structure, balances and
vouchers (server.js lines 212-330): build the parent map (groups first,
ledgers after, a later `set` winning), classify every ledger message, fill
the debtor buckets in KNOWN_GROUPS declaration order with "No-Group" last
and the creditor list, each in ledger order, with the batch-fetch updates
applied to the flagged items. -/
def buildSnapshot (env : SyncEnv) (st : Store)
    (groups : List (String × String)) (ledgers : List LedgerMsg)
    (bals : List (String × ℚ)) : Snapshot :=
  let lp := localPairs (st.file.getD emptySnapshot)
  let pm := (groups ++ ledgers.map (fun m => (m.name, m.parent))).reverse
  let items := ledgers.map (fun m => (m, finalItemOf env lp bals m))
  { debtors := (knownGroupsList ++ ["No-Group"]).map (fun g =>
      (g, items.filterMap (fun p =>
        match destOf pm p.1.parent with
        | Dest.debtor b => if bucketKey b = g then some p.2 else none
        | _ => none)))
    creditors := items.filterMap (fun p =>
      if destOf pm p.1.parent = Dest.creditor then some p.2 else none) }

/-- The error thrown at server.js line 208 when Tally is unreachable. -/
def tallyDownMsg : String :=
  "Tally Prime is NOT RUNNING or NOT ON PORT 9000. Please start Tally and enable HTTP Server."

/-- `performSync()` (server.js lines 205-336) against an environment and the
persisted store: the connectivity check throws first; each structure/balance
fetch may throw, aborting the cycle with the store untouched; only after
classification and the batch voucher fetch completes is the snapshot
assembled and `saveData` run. Returns the surfaced result and the store
after the cycle. -/
def performSyncModel (env : SyncEnv) (st : Store) :
    Except String Snapshot × Store :=
  if env.tallyUp = false then (Except.error tallyDownMsg, st)
  else
    match env.groupsRaw with
    | Except.error e => (Except.error e, st)
    | Except.ok groups =>
      match env.ledgersRaw with
      | Except.error e => (Except.error e, st)
      | Except.ok ledgers =>
        match env.balances with
        | Except.error e => (Except.error e, st)
        | Except.ok bals =>
          (Except.ok (buildSnapshot env st groups ledgers bals),
            ⟨some (buildSnapshot env st groups ledgers bals)⟩)

/-- Claim C8: when Tally is unreachable the cycle fails with the error
surfaced and the persisted snapshot untouched; more generally a cycle
failing at any fetch step leaves the previous store exactly as it was, and
the store is (re)written precisely when the whole cycle completes, with the
fully assembled snapshot. -/
theorem performSync_snapshot_atomicity (env : SyncEnv) (st : Store) :
    (env.tallyUp = false →
        performSyncModel env st = (Except.error tallyDownMsg, st))
    ∧ (∀ e, (performSyncModel env st).1 = Except.error e →
        (performSyncModel env st).2 = st)
    ∧ (∀ snap, (performSyncModel env st).1 = Except.ok snap →
        (performSyncModel env st).2 = ⟨some snap⟩) := by
  refine ⟨?_, ?_, ?_⟩
  · intro h
    unfold performSyncModel
    rw [if_pos h]
  · intro e
    unfold performSyncModel
    by_cases ht : env.tallyUp = false
    · rw [if_pos ht]
      intro _
      rfl
    · rw [if_neg ht]
      cases env.groupsRaw with
      | error e2 => intro _; rfl
      | ok groups =>
        cases env.ledgersRaw with
        | error e2 => intro _; rfl
        | ok ledgers =>
          cases env.balances with
          | error e2 => intro _; rfl
          | ok bals =>
            intro h
            simp at h
  · intro snap
    unfold performSyncModel
    by_cases ht : env.tallyUp = false
    · rw [if_pos ht]
      intro h
      simp at h
    · rw [if_neg ht]
      cases env.groupsRaw with
      | error e2 => intro h; simp at h
      | ok groups =>
        cases env.ledgersRaw with
        | error e2 => intro h; simp at h
        | ok ledgers =>
          cases env.balances with
          | error e2 => intro h; simp at h
          | ok bals =>
            intro h
            simp only [Except.ok.injEq] at h
            exact congrArg (fun s => (⟨some s⟩ : Store)) h

/-- A concrete environment where Tally is down. -/
def envDown : SyncEnv :=
  ⟨false, Except.ok [], Except.ok [], Except.ok [], fun _ => []⟩

/-- Witness for C8 at a concrete input: with Tally down and an empty
persisted store, the cycle errors and the store is untouched. -/
theorem performSync_snapshot_atomicity_witness :
    performSyncModel envDown ⟨none⟩ = (Except.error tallyDownMsg, ⟨none⟩) :=
  (performSync_snapshot_atomicity envDown ⟨none⟩).1 rfl
